import Mathlib

/-!
Shallow embedding of the Lost and Found portal core (src/App.py): the
`items` and `teachers` tables, the status mutations (`add_item`,
`mark_collected`, `archive_item`, the History-tab restore handler), the
`auto_archive` sweep and the filtered query `get_items`, together with
proofs of the specification claims about them.

Modelling conventions (each noted again at the definition it concerns):
* Timestamps. The code stores `datetime.utcnow().isoformat()` strings in
  the TEXT columns `uploaded_at` / `collected_at` and consumes them
  lexicographically (SQLite `ORDER BY`), through SQLite `date()` (the
  date filters), or through `datetime.fromisoformat` (the sweep). A
  well-formed timestamp string is represented by its time value, an
  integer count of seconds since the epoch; on the fixed-format strings
  the program writes, byte order coincides with numeric order of these
  values. A string that `datetime.fromisoformat` rejects is represented
  by `UploadedAt.malformed` carrying the raw text.
* Row ids are `Nat` (AUTOINCREMENT hands out 1, 2, 3, ...); times are
  `Int` (they may lie before the epoch).
* Each `UPDATE ... WHERE id = ?` is a pointwise map over the rows: `id`
  is the PRIMARY KEY, so at most one row matches, and per-row updates
  keyed by id (as in the sweep loop) are the same map.
* Exceptions: the `try/except` around `datetime.fromisoformat` becomes a
  `match` on `Option`; `sqlite3.IntegrityError` on the UNIQUE username
  column becomes a membership test whose failure branch returns the
  store unchanged (a failed INSERT has no effect).
-/

/-- Seconds in one day: `timedelta(days = d)` is `d * 86400` seconds. -/
def secondsPerDay : Int := 86400

/-- `AUTO_ARCHIVE_DAYS = 30` (src/App.py line 13). -/
def AUTO_ARCHIVE_DAYS : Int := 30

/-- Content of the TEXT column `uploaded_at`: either a well-formed
`isoformat` timestamp, abstracted to its time value in seconds since the
epoch, or text `datetime.fromisoformat` rejects, kept as the raw string. -/
inductive UploadedAt : Type where
  | iso (t : Int)
  | malformed (s : String)
deriving DecidableEq, Repr

/-- `datetime.fromisoformat` (src/App.py line 153) as used under the
sweep try/except: succeeds exactly on well-formed timestamps. -/
def fromisoformat : UploadedAt → Option Int
  | .iso t => some t
  | .malformed _ => none

/-- Day number of a time value: the calendar-date portion, floor of the
division by the length of a day (dates before the epoch are negative). -/
def dayOf (t : Int) : Int := Int.fdiv t secondsPerDay

/-- SQLite `date(uploaded_at)` (src/App.py lines 113 and 116): the
calendar date of a well-formed timestamp, NULL (`none`) on text it
cannot parse; a comparison against NULL never satisfies the clause. -/
def sqliteDate : UploadedAt → Option Int
  | .iso t => some (dayOf t)
  | .malformed _ => none

/-- SQLite `ORDER BY uploaded_at DESC` comparison: `uploadedDesc a b`
says `a` may come before `b`. On well-formed timestamps the stored
strings share one fixed format, so the byte order SQLite uses agrees
with comparing time values. The placement of malformed text relative to
well-formed timestamps is an abstraction choice (it sorts last here);
no claim observes it, since the date filters exclude malformed rows. -/
def uploadedDesc : UploadedAt → UploadedAt → Bool
  | .iso a, .iso b => decide (b ≤ a)
  | .iso _, .malformed _ => true
  | .malformed _, .iso _ => false
  | .malformed a, .malformed b => decide (b ≤ a)

/-- One row of the `items` table (src/App.py lines 34-45). `status` is
free TEXT in the schema; the program writes only `"lost"`, `"collected"`
and `"archived"`. `collected_at` is a timestamp the program itself
writes (`mark_collected`), so it is `Option Int`, `none` for NULL. -/
structure Item where
  id : Nat
  description : String
  found_location : String
  collect_location : String
  image_path : Option String
  uploaded_at : UploadedAt
  status : String
  collected_at : Option Int
deriving DecidableEq, Repr

/-- One row of the `teachers` table (src/App.py lines 26-32). -/
structure Teacher where
  id : Nat
  username : String
  password_hash : String
deriving DecidableEq, Repr

/-- The persistent store: both tables plus the AUTOINCREMENT counters. -/
structure DB where
  items : List Item
  nextItemId : Nat
  teachers : List Teacher
  nextTeacherId : Nat
deriving DecidableEq, Repr

/-- A freshly initialised database (`init_db` creates empty tables;
AUTOINCREMENT starts at 1). -/
def emptyDB : DB :=
  { items := [], nextItemId := 1, teachers := [], nextTeacherId := 1 }

/-- `create_teacher` (src/App.py lines 60-71). The INSERT violates the
UNIQUE constraint on `username` exactly when the username is already
present; the raised `IntegrityError` is caught and `(False, "Username
already exists")` returned with the store unchanged. Otherwise the row
is inserted and `(True, "Created")` returned. The SHA-256 hex digest
`hash_password` is a pure library function, taken here as a parameter. -/
def create_teacher (hash_password : String → String) (username password : String)
    (db : DB) : (Bool × String) × DB :=
  let ph := hash_password password
  if db.teachers.any (fun t => t.username == username) then
    ((false, "Username already exists"), db)
  else
    ((true, "Created"),
      { db with
        teachers := db.teachers ++
          [{ id := db.nextTeacherId, username := username, password_hash := ph }],
        nextTeacherId := db.nextTeacherId + 1 })

/-- `add_item` (src/App.py lines 92-101): INSERT with `uploaded_at` the
current time (always well-formed), `status = 'lost'`, `collected_at`
NULL. `now` is the value of `datetime.utcnow()`. -/
def add_item (description found_location collect_location : String)
    (image_path : Option String) (now : Int) (db : DB) : DB :=
  { db with
    items := db.items ++
      [{ id := db.nextItemId, description := description,
         found_location := found_location, collect_location := collect_location,
         image_path := image_path, uploaded_at := UploadedAt.iso now,
         status := "lost", collected_at := none }],
    nextItemId := db.nextItemId + 1 }

/-- `mark_collected` (src/App.py lines 128-134): unconditional
`UPDATE items SET status = 'collected', collected_at = now WHERE id = ?`. -/
def mark_collected (now : Int) (item_id : Nat) (db : DB) : DB :=
  { db with
    items := db.items.map (fun it =>
      if it.id = item_id then
        { it with status := "collected", collected_at := some now }
      else it) }

/-- `archive_item` (src/App.py lines 136-141): unconditional
`UPDATE items SET status = 'archived' WHERE id = ?`. -/
def archive_item (item_id : Nat) (db : DB) : DB :=
  { db with
    items := db.items.map (fun it =>
      if it.id = item_id then { it with status := "archived" } else it) }

/-- The Restore button handler (src/App.py lines 371-381): for a
positive id typed into the number input, unconditional
`UPDATE items SET status = 'lost' WHERE id = ?` (the handler guard
`restore_id > 0` only rules out the default input value 0, which no row
carries anyway). -/
def restore_item (item_id : Nat) (db : DB) : DB :=
  { db with
    items := db.items.map (fun it =>
      if it.id = item_id then { it with status := "lost" } else it) }

/-- Effect of one `auto_archive` pass on one row (src/App.py lines
150-157): rows whose `status` is not `'lost'` are never selected; a
selected row whose `uploaded_at` does not parse is skipped by the
`except: continue`; a parsed upload time strictly below the cutoff makes
the row archived. -/
def sweepItem (cutoff : Int) (it : Item) : Item :=
  if it.status = "lost" then
    match fromisoformat it.uploaded_at with
    | none => it
    | some up => if up < cutoff then { it with status := "archived" } else it
  else it

/-- `auto_archive` (src/App.py lines 143-159): the cutoff is
`utcnow() - timedelta(days=AUTO_ARCHIVE_DAYS)`; every selected `'lost'`
row strictly older than the cutoff is archived by id. Ids are unique
(PRIMARY KEY), so the per-id UPDATE loop is this pointwise map. -/
def auto_archive (now : Int) (db : DB) : DB :=
  { db with items := db.items.map (sweepItem (now - AUTO_ARCHIVE_DAYS * secondsPerDay)) }

/-- The row filter `get_items` builds (src/App.py lines 103-119): a
status clause when `status_filter` is truthy in Python (present and not
the empty string), and the two `date(uploaded_at)` bounds when the
corresponding date is present (a Python `date` object is always truthy). -/
def itemPasses (status_filter : Option String) (start_date end_date : Option Int)
    (it : Item) : Bool :=
  (match status_filter with
   | none => true
   | some s => if s = "" then true else it.status == s)
  && (match start_date with
      | none => true
      | some d =>
        match sqliteDate it.uploaded_at with
        | none => false
        | some ud => decide (d ≤ ud))
  && (match end_date with
      | none => true
      | some d =>
        match sqliteDate it.uploaded_at with
        | none => false
        | some ud => decide (ud ≤ d))

/-- The `ORDER BY uploaded_at DESC` comparator on whole rows. -/
def rowDesc (a b : Item) : Prop := uploadedDesc a.uploaded_at b.uploaded_at = true

instance : DecidableRel rowDesc := fun a b =>
  inferInstanceAs (Decidable (_ = true))

instance : IsTotal Item rowDesc :=
  ⟨fun a b => by
    unfold rowDesc
    generalize a.uploaded_at = x
    generalize b.uploaded_at = y
    rcases x with t1 | s1 <;> rcases y with t2 | s2 <;>
      simp [uploadedDesc] <;> exact le_total _ _⟩

instance : IsTrans Item rowDesc :=
  ⟨fun a b c hab hbc => by
    unfold rowDesc at hab hbc ⊢
    revert hab hbc
    generalize a.uploaded_at = x
    generalize b.uploaded_at = y
    generalize c.uploaded_at = z
    rcases x with t1 | s1 <;> rcases y with t2 | s2 <;> rcases z with t3 | s3 <;>
      simp [uploadedDesc] <;> exact fun h1 h2 => le_trans h2 h1⟩

/-- `get_items` (src/App.py lines 103-126): the WHERE clauses of
`itemPasses`, then `ORDER BY uploaded_at DESC`. The SQL sort is modelled
as an insertion sort by `rowDesc`; the claims depend only on sortedness
and on the multiset of rows, which any sort realises. The parameters
`start_date` / `end_date` are day numbers already (`date(?)` of a
`date.isoformat()` parameter is that date itself). -/
def get_items (status_filter : Option String) (start_date end_date : Option Int)
    (db : DB) : List Item :=
  List.insertionSort rowDesc
    (db.items.filter (itemPasses status_filter start_date end_date))

/-- The stores the five mutating operations of the claims reach from a
fresh database. -/
inductive Reachable : DB → Prop where
  | empty : Reachable emptyDB
  | add (d f c : String) (ip : Option String) (now : Int) {db : DB} :
      Reachable db → Reachable (add_item d f c ip now db)
  | collect (now : Int) (id : Nat) {db : DB} :
      Reachable db → Reachable (mark_collected now id db)
  | archive (id : Nat) {db : DB} :
      Reachable db → Reachable (archive_item id db)
  | restore (id : Nat) {db : DB} :
      Reachable db → Reachable (restore_item id db)
  | sweep (now : Int) {db : DB} :
      Reachable db → Reachable (auto_archive now db)

/-- The lifecycle invariant the specification states: a row has status
`'collected'` exactly when its `collected_at` is non-NULL. -/
def CollectedInv (db : DB) : Prop :=
  ∀ it ∈ db.items, (it.status = "collected" ↔ it.collected_at ≠ none)

instance : DecidablePred CollectedInv := fun db => by
  unfold CollectedInv
  infer_instance

/-- The date-range membership of the claim wording: the calendar-date
portion of `uploadedAt` lies within `[d1, d2]`, inclusive on both ends
(malformed text has no date portion). -/
def inDateRange (d1 d2 : Int) : UploadedAt → Bool
  | .iso t => decide (d1 ≤ dayOf t) && decide (dayOf t ≤ d2)
  | .malformed _ => false

/-- A concrete lost item used by several witnesses. -/
def baseItem : Item :=
  { id := 1, description := "wallet", found_location := "Library",
    collect_location := "Office", image_path := none,
    uploaded_at := UploadedAt.iso 0, status := "lost", collected_at := none }

/-- Reachable store violating the full lifecycle invariant: the item is
added, marked collected at time 5, then archived (status ends
`'archived'` while `collected_at` stays `some 5`). -/
def cexDB : DB :=
  archive_item 1 (mark_collected 5 1 (add_item ("wallet") ("Library") ("Office") none 0 emptyDB))

/-- Store with one item uploaded 31 days before time 0. -/
def boundaryOld : Item :=
  { baseItem with id := 1, uploaded_at := UploadedAt.iso (-2678400) }

/-- Item uploaded 29 days before time 0. -/
def boundaryNew : Item :=
  { baseItem with id := 2, uploaded_at := UploadedAt.iso (-2505600) }

def boundaryDB : DB :=
  { items := [boundaryOld, boundaryNew], nextItemId := 3, teachers := [], nextTeacherId := 1 }

/-- An already-archived item, target of the unconditional updates. -/
def archItem : Item := { baseItem with status := "archived" }

def archDB : DB :=
  { items := [archItem], nextItemId := 2, teachers := [], nextTeacherId := 1 }

/-- Store with the account `alice` already present. -/
def aliceDB : DB :=
  { items := [], nextItemId := 1,
    teachers := [{ id := 1, username := "alice", password_hash := "2bb80d5" }],
    nextTeacherId := 2 }

/-- Store holding one item with id 1 (so id 2 is absent). -/
def soloDB : DB :=
  { items := [baseItem], nextItemId := 2, teachers := [], nextTeacherId := 1 }

/-- Item uploaded exactly 30 days before time 0. -/
def thresholdItem : Item :=
  { baseItem with uploaded_at := UploadedAt.iso (-2592000) }

def thresholdDB : DB :=
  { items := [thresholdItem], nextItemId := 2, teachers := [], nextTeacherId := 1 }

/-! ## Helper lemmas -/

theorem lost_ne_collected : ¬ ("lost" : String) = "collected" := by decide

theorem archived_ne_collected : ¬ ("archived" : String) = "collected" := by decide

theorem map_fixed {α : Type} {f : α → α} :
    ∀ {l : List α}, (∀ a ∈ l, f a = a) → l.map f = l := by
  intro l h
  induction l with
  | nil => rfl
  | cons a t ih =>
    simp only [List.map_cons]
    rw [h a (by simp), ih (fun x hx => h x (by simp [hx]))]

/-- A sweep pass either leaves a row alone or archives a row that was
`'lost'`. -/
theorem sweepItem_eq_or (c : Int) (it : Item) :
    sweepItem c it = it ∨
      (it.status = "lost" ∧ sweepItem c it = { it with status := "archived" }) := by
  unfold sweepItem
  by_cases h : it.status = "lost"
  · rcases hu : fromisoformat it.uploaded_at with _ | up
    · simp [h, hu]
    · by_cases hlt : up < c
      · exact Or.inr ⟨h, by simp [h, hu, hlt]⟩
      · simp [h, hu, hlt]
  · simp [h]

theorem sweepItem_not_lost (c : Int) (it : Item) (h : ¬ it.status = "lost") :
    sweepItem c it = it := by
  simp [sweepItem, h]

theorem sweepItem_idem (c : Int) (it : Item) :
    sweepItem c (sweepItem c it) = sweepItem c it := by
  rcases sweepItem_eq_or c it with h | ⟨_, h⟩
  · rw [h]; exact h
  · rw [h]
    exact sweepItem_not_lost c _ (by simp)

/-- Appending a fresh `'lost'` row preserves the half-invariant that
collected rows carry a collection time. -/
theorem fwdInv_add (d f c : String) (ip : Option String) (now : Int) (db : DB)
    (h : ∀ it ∈ db.items, it.status = "collected" → it.collected_at ≠ none) :
    ∀ it ∈ (add_item d f c ip now db).items,
      it.status = "collected" → it.collected_at ≠ none := by
  intro it hit
  rcases List.mem_append.mp hit with hin | hnew
  · exact h it hin
  · rw [List.mem_singleton] at hnew
    subst hnew
    intro hc
    exact absurd hc lost_ne_collected

theorem fwdInv_collect (now : Int) (item_id : Nat) (db : DB)
    (h : ∀ it ∈ db.items, it.status = "collected" → it.collected_at ≠ none) :
    ∀ it ∈ (mark_collected now item_id db).items,
      it.status = "collected" → it.collected_at ≠ none := by
  intro it hit
  obtain ⟨x, hx, rfl⟩ := List.mem_map.mp hit
  by_cases hid : x.id = item_id
  · simp [hid]
  · simp only [if_neg hid]
    exact h x hx

theorem fwdInv_archive (item_id : Nat) (db : DB)
    (h : ∀ it ∈ db.items, it.status = "collected" → it.collected_at ≠ none) :
    ∀ it ∈ (archive_item item_id db).items,
      it.status = "collected" → it.collected_at ≠ none := by
  intro it hit
  obtain ⟨x, hx, rfl⟩ := List.mem_map.mp hit
  by_cases hid : x.id = item_id
  · simp only [if_pos hid]
    intro hc
    exact absurd hc archived_ne_collected
  · simp only [if_neg hid]
    exact h x hx

theorem fwdInv_restore (item_id : Nat) (db : DB)
    (h : ∀ it ∈ db.items, it.status = "collected" → it.collected_at ≠ none) :
    ∀ it ∈ (restore_item item_id db).items,
      it.status = "collected" → it.collected_at ≠ none := by
  intro it hit
  obtain ⟨x, hx, rfl⟩ := List.mem_map.mp hit
  by_cases hid : x.id = item_id
  · simp only [if_pos hid]
    intro hc
    exact absurd hc lost_ne_collected
  · simp only [if_neg hid]
    exact h x hx

theorem fwdInv_sweep (now : Int) (db : DB)
    (h : ∀ it ∈ db.items, it.status = "collected" → it.collected_at ≠ none) :
    ∀ it ∈ (auto_archive now db).items,
      it.status = "collected" → it.collected_at ≠ none := by
  intro it hit
  obtain ⟨x, hx, rfl⟩ := List.mem_map.mp hit
  rcases sweepItem_eq_or (now - AUTO_ARCHIVE_DAYS * secondsPerDay) x with heq | ⟨_, heq⟩
  · rw [heq]; exact h x hx
  · rw [heq]
    intro hc
    exact absurd hc archived_ne_collected

theorem collectedInv_add (d f c : String) (ip : Option String) (now : Int) (db : DB)
    (h : CollectedInv db) : CollectedInv (add_item d f c ip now db) := by
  intro it hit
  rcases List.mem_append.mp hit with hin | hnew
  · exact h it hin
  · rw [List.mem_singleton] at hnew
    subst hnew
    constructor
    · intro hc; exact absurd hc lost_ne_collected
    · intro hn; exact absurd rfl hn

theorem collectedInv_collect (now : Int) (item_id : Nat) (db : DB)
    (h : CollectedInv db) : CollectedInv (mark_collected now item_id db) := by
  intro it hit
  obtain ⟨x, hx, rfl⟩ := List.mem_map.mp hit
  by_cases hid : x.id = item_id
  · simp [hid]
  · simp only [if_neg hid]
    exact h x hx

theorem collectedInv_sweep (now : Int) (db : DB)
    (h : CollectedInv db) : CollectedInv (auto_archive now db) := by
  intro it hit
  obtain ⟨x, hx, rfl⟩ := List.mem_map.mp hit
  rcases sweepItem_eq_or (now - AUTO_ARCHIVE_DAYS * secondsPerDay) x with heq | ⟨hlostx, heq⟩
  · rw [heq]; exact h x hx
  · rw [heq]
    have hxc : ¬ x.status = "collected" := by
      rw [hlostx]; decide
    have hnone : x.collected_at = none := by
      by_contra hn
      exact hxc ((h x hx).mpr hn)
    constructor
    · intro hc; exact absurd hc archived_ne_collected
    · intro hn; exact absurd hnone hn

/-- Setting the status of the row with the given id to a non-collected
value preserves the invariant when that row is not currently collected. -/
theorem collectedInv_update_status (db : DB) (item_id : Nat) (s : String)
    (hs : ¬ s = "collected") (h : CollectedInv db)
    (htarget : ∀ it ∈ db.items, it.id = item_id → ¬ it.status = "collected") :
    CollectedInv { db with items := db.items.map (fun it =>
      if it.id = item_id then { it with status := s } else it) } := by
  intro it hit
  obtain ⟨x, hx, rfl⟩ := List.mem_map.mp hit
  by_cases hid : x.id = item_id
  · simp only [if_pos hid]
    have hnone : x.collected_at = none := by
      by_contra hn
      exact htarget x hx hid ((h x hx).mpr hn)
    constructor
    · intro hc; exact absurd hc hs
    · intro hn; exact absurd hnone hn
  · simp only [if_neg hid]
    exact h x hx

/-! ## Claim theorems -/

/-- C1 (amended). The mutations addItem, markCollected and the
auto-archive sweep preserve the full lifecycle invariant (status is
collected exactly when collectedAt is non-null); every reachable store
satisfies its collected half (a collected item has non-null
collectedAt); and archiveItem and the restore handler preserve the full
invariant when the targeted item is not currently collected. As
originally stated the claim fails: those two overwrite status
unconditionally, so on a collected item they leave collectedAt non-null
with status no longer collected. -/
theorem lifecycle_invariant_amended :
    (∀ db, Reachable db → ∀ it ∈ db.items,
      it.status = "collected" → it.collected_at ≠ none)
    ∧ (∀ d f c ip now db, CollectedInv db → CollectedInv (add_item d f c ip now db))
    ∧ (∀ now item_id db, CollectedInv db → CollectedInv (mark_collected now item_id db))
    ∧ (∀ now db, CollectedInv db → CollectedInv (auto_archive now db))
    ∧ (∀ item_id db, CollectedInv db →
        (∀ it ∈ db.items, it.id = item_id → ¬ it.status = "collected") →
        CollectedInv (archive_item item_id db) ∧ CollectedInv (restore_item item_id db)) := by
  refine ⟨?_, ?_, ?_, ?_, ?_⟩
  · intro db h
    induction h with
    | empty => intro it hit; exact absurd hit (List.not_mem_nil it)
    | add d f c ip now _ ih => exact fwdInv_add d f c ip now _ ih
    | collect now id _ ih => exact fwdInv_collect now id _ ih
    | archive id _ ih => exact fwdInv_archive id _ ih
    | restore id _ ih => exact fwdInv_restore id _ ih
    | sweep now _ ih => exact fwdInv_sweep now _ ih
  · intro d f c ip now db h
    exact collectedInv_add d f c ip now db h
  · intro now item_id db h
    exact collectedInv_collect now item_id db h
  · intro now db h
    exact collectedInv_sweep now db h
  · intro item_id db h htarget
    exact ⟨collectedInv_update_status db item_id ("archived") archived_ne_collected h htarget,
      collectedInv_update_status db item_id ("lost") lost_ne_collected h htarget⟩

/-- C1 (counterexample). The store reached by adding an item, marking it
collected at time 5, then archiving it is reachable, yet violates the
claimed invariant: its item has status archived and collectedAt still
non-null. -/
theorem lifecycle_invariant_cex : Reachable cexDB ∧ ¬ CollectedInv cexDB := by
  constructor
  · exact Reachable.archive 1 (Reachable.collect 5 1
      (Reachable.add ("wallet") ("Library") ("Office") none 0 Reachable.empty))
  · decide

/-- C3. Running the auto-archive sweep twice at the same current time
gives the same store (hence the same status for every item) as running
it once. -/
theorem auto_archive_idempotent (now : Int) (db : DB) :
    auto_archive now (auto_archive now db) = auto_archive now db := by
  simp only [auto_archive]
  rw [List.map_map]
  congr 1
  exact List.map_congr_left fun a _ => sweepItem_idem _ a

/-- C7. If an account named alice exists, a second createAccount for
alice fails with the duplicate-username error and leaves the whole
store, the stored password hash for alice included, unchanged. -/
theorem create_teacher_duplicate (hp : String → String) (pw2 : String) (db : DB)
    (h : db.teachers.any (fun t => t.username == "alice") = true) :
    create_teacher hp ("alice") pw2 db = ((false, "Username already exists"), db) := by
  simp [create_teacher, h]

theorem create_teacher_duplicate_witness :
    create_teacher (fun s => s) ("alice") ("pw2") aliceDB
      = ((false, "Username already exists"), aliceDB) :=
  create_teacher_duplicate (fun s => s) ("pw2") aliceDB (by decide)

/-- C9. When no stored item has the given id, markCollected, archiveItem
and the restore handler leave the store unchanged (the UPDATE matches no
row) and signal no error. -/
theorem missing_id_noop (now : Int) (item_id : Nat) (db : DB)
    (h : ∀ it ∈ db.items, ¬ it.id = item_id) :
    mark_collected now item_id db = db ∧ archive_item item_id db = db ∧
      restore_item item_id db = db := by
  refine ⟨?_, ?_, ?_⟩ <;>
    simp only [mark_collected, archive_item, restore_item] <;>
    rw [map_fixed (fun it hit => if_neg (h it hit))]

theorem missing_id_noop_witness :
    mark_collected 7 2 soloDB = soloDB ∧ archive_item 2 soloDB = soloDB ∧
      restore_item 2 soloDB = soloDB :=
  missing_id_noop 7 2 soloDB (by decide)

/-- C2. One sweep at threshold 30 days archives a lost item uploaded 31
days before now and leaves lost a lost item uploaded 29 days before now. -/
theorem auto_archive_thirtyone_twentynine (now : Int) (db : DB) (it : Item)
    (hmem : it ∈ db.items) (hlost : it.status = "lost") :
    (it.uploaded_at = UploadedAt.iso (now - 31 * secondsPerDay) →
      { it with status := "archived" } ∈ (auto_archive now db).items)
    ∧ (it.uploaded_at = UploadedAt.iso (now - 29 * secondsPerDay) →
      it ∈ (auto_archive now db).items) := by
  constructor
  · intro hup
    have hlt : now - 31 * secondsPerDay < now - AUTO_ARCHIVE_DAYS * secondsPerDay := by
      simp only [secondsPerDay, AUTO_ARCHIVE_DAYS]
      omega
    have hs : sweepItem (now - AUTO_ARCHIVE_DAYS * secondsPerDay) it
        = { it with status := "archived" } := by
      simp [sweepItem, hlost, hup, fromisoformat, hlt]
    have h2 := List.mem_map_of_mem (sweepItem (now - AUTO_ARCHIVE_DAYS * secondsPerDay)) hmem
    rw [hs] at h2
    exact h2
  · intro hup
    have hge : ¬ now - 29 * secondsPerDay < now - AUTO_ARCHIVE_DAYS * secondsPerDay := by
      simp only [secondsPerDay, AUTO_ARCHIVE_DAYS]
      omega
    have hs : sweepItem (now - AUTO_ARCHIVE_DAYS * secondsPerDay) it = it := by
      simp [sweepItem, hlost, hup, fromisoformat, hge]
    have h2 := List.mem_map_of_mem (sweepItem (now - AUTO_ARCHIVE_DAYS * secondsPerDay)) hmem
    rw [hs] at h2
    exact h2

theorem auto_archive_thirtyone_twentynine_witness :
    ({ boundaryOld with status := "archived" } ∈ (auto_archive 0 boundaryDB).items)
    ∧ (boundaryNew ∈ (auto_archive 0 boundaryDB).items) :=
  ⟨(auto_archive_thirtyone_twentynine 0 boundaryDB boundaryOld (by decide) rfl).1 (by decide),
   (auto_archive_thirtyone_twentynine 0 boundaryDB boundaryNew (by decide) rfl).2 (by decide)⟩

/-- C4. For an existing item id, whatever the current status of the row,
markCollected puts the row there with status collected and collectedAt
now, archiveItem with status archived, and the restore handler with
status lost; none of the three consults the current status. -/
theorem status_ops_unconditional (now : Int) (item_id : Nat) (db : DB) (it : Item)
    (hmem : it ∈ db.items) (hid : it.id = item_id) :
    ({ it with status := "collected", collected_at := some now }
        ∈ (mark_collected now item_id db).items)
    ∧ ({ it with status := "archived" } ∈ (archive_item item_id db).items)
    ∧ ({ it with status := "lost" } ∈ (restore_item item_id db).items) := by
  refine ⟨?_, ?_, ?_⟩
  · have h2 := List.mem_map_of_mem (fun x : Item =>
      if x.id = item_id then { x with status := "collected", collected_at := some now }
      else x) hmem
    simp only [if_pos hid] at h2
    exact h2
  · have h2 := List.mem_map_of_mem (fun x : Item =>
      if x.id = item_id then { x with status := "archived" } else x) hmem
    simp only [if_pos hid] at h2
    exact h2
  · have h2 := List.mem_map_of_mem (fun x : Item =>
      if x.id = item_id then { x with status := "lost" } else x) hmem
    simp only [if_pos hid] at h2
    exact h2

theorem status_ops_unconditional_witness :
    ({ archItem with status := "collected", collected_at := some 9 }
        ∈ (mark_collected 9 1 archDB).items)
    ∧ ({ archItem with status := "archived" } ∈ (archive_item 1 archDB).items)
    ∧ ({ archItem with status := "lost" } ∈ (restore_item 1 archDB).items) :=
  status_ops_unconditional 9 1 archDB archItem (by decide) rfl

/-- C8. The sweep is total and touches every row exactly once: the item
count is preserved; a lost row with unparseable uploadedAt is skipped,
staying in the store unchanged; and every lost row with a parsed upload
time strictly older than the cutoff is archived regardless of malformed
rows elsewhere in the store. -/
theorem auto_archive_resilient (now : Int) (db : DB) :
    ((auto_archive now db).items.length = db.items.length)
    ∧ (∀ it s, it ∈ db.items → it.uploaded_at = UploadedAt.malformed s →
        it ∈ (auto_archive now db).items)
    ∧ (∀ it t, it ∈ db.items → it.status = "lost" →
        it.uploaded_at = UploadedAt.iso t →
        t < now - AUTO_ARCHIVE_DAYS * secondsPerDay →
        { it with status := "archived" } ∈ (auto_archive now db).items) := by
  refine ⟨List.length_map _ _, ?_, ?_⟩
  · intro it s hmem hup
    have hs : sweepItem (now - AUTO_ARCHIVE_DAYS * secondsPerDay) it = it := by
      by_cases hst : it.status = "lost"
      · simp [sweepItem, hst, hup, fromisoformat]
      · simp [sweepItem, hst]
    have h2 := List.mem_map_of_mem (sweepItem (now - AUTO_ARCHIVE_DAYS * secondsPerDay)) hmem
    rw [hs] at h2
    exact h2
  · intro it t hmem hlost hup hold
    have hs : sweepItem (now - AUTO_ARCHIVE_DAYS * secondsPerDay) it
        = { it with status := "archived" } := by
      simp [sweepItem, hlost, hup, fromisoformat, hold]
    have h2 := List.mem_map_of_mem (sweepItem (now - AUTO_ARCHIVE_DAYS * secondsPerDay)) hmem
    rw [hs] at h2
    exact h2

/-- C10. A lost item whose age is exactly the threshold (uploadedAt
equal to now minus 30 days) is not archived by the sweep: the comparison
is strict, so the row is left unchanged and stays lost. -/
theorem auto_archive_exact_threshold (now : Int) (db : DB) (it : Item)
    (hmem : it ∈ db.items) (hlost : it.status = "lost")
    (hup : it.uploaded_at = UploadedAt.iso (now - AUTO_ARCHIVE_DAYS * secondsPerDay)) :
    it ∈ (auto_archive now db).items
    ∧ sweepItem (now - AUTO_ARCHIVE_DAYS * secondsPerDay) it = it := by
  have hs : sweepItem (now - AUTO_ARCHIVE_DAYS * secondsPerDay) it = it := by
    simp [sweepItem, hlost, hup, fromisoformat]
  refine ⟨?_, hs⟩
  have h2 := List.mem_map_of_mem (sweepItem (now - AUTO_ARCHIVE_DAYS * secondsPerDay)) hmem
  rw [hs] at h2
  exact h2

theorem auto_archive_exact_threshold_witness :
    thresholdItem ∈ (auto_archive 0 thresholdDB).items
    ∧ sweepItem (0 - AUTO_ARCHIVE_DAYS * secondsPerDay) thresholdItem = thresholdItem :=
  auto_archive_exact_threshold 0 thresholdDB thresholdItem (by decide) rfl (by decide)

/-- C5. With a date range and no status filter, the query returns
exactly (as a multiset) the items whose uploadedAt calendar-date portion
lies within the range, inclusive on both ends, and the returned list is
ordered by uploadedAt descending: whenever one returned item precedes
another, the upload time of the later one is no greater. -/
theorem get_items_dateRange (db : DB) (d1 d2 : Int) :
    (get_items none (some d1) (some d2) db).Perm
      (db.items.filter (fun it => inDateRange d1 d2 it.uploaded_at))
    ∧ (get_items none (some d1) (some d2) db).Pairwise
      (fun a b => ∀ ta tb, a.uploaded_at = UploadedAt.iso ta →
        b.uploaded_at = UploadedAt.iso tb → tb ≤ ta) := by
  have hfe : db.items.filter (itemPasses none (some d1) (some d2))
      = db.items.filter (fun it => inDateRange d1 d2 it.uploaded_at) := by
    apply List.filter_congr
    intro it _
    rcases hu : it.uploaded_at with t | s <;>
      simp [itemPasses, inDateRange, sqliteDate, hu]
  constructor
  · exact (List.perm_insertionSort rowDesc
      (db.items.filter (itemPasses none (some d1) (some d2)))).trans
      (hfe ▸ List.Perm.refl _)
  · have hs := List.sorted_insertionSort rowDesc
      (db.items.filter (itemPasses none (some d1) (some d2)))
    refine List.Pairwise.imp ?_ hs
    intro a b hab ta tb hta htb
    have h2 : uploadedDesc a.uploaded_at b.uploaded_at = true := hab
    rw [hta, htb] at h2
    simpa [uploadedDesc] using h2

/-- C6. On an empty store, addItem of the wallet followed by listItems
filtered to status lost returns exactly one item, with description
wallet, status lost and null collectedAt. -/
theorem add_then_list_roundtrip (now : Int) :
    (get_items (some ("lost")) none none
        (add_item ("wallet") ("Library") ("Office") none now emptyDB)).length = 1
    ∧ ∀ it ∈ get_items (some ("lost")) none none
        (add_item ("wallet") ("Library") ("Office") none now emptyDB),
        it.description = "wallet" ∧ it.status = "lost" ∧ it.collected_at = none := by
  have h : get_items (some ("lost")) none none
      (add_item ("wallet") ("Library") ("Office") none now emptyDB)
      = [{ id := 1, description := "wallet", found_location := "Library",
           collect_location := "Office", image_path := none,
           uploaded_at := UploadedAt.iso now, status := "lost",
           collected_at := none }] := rfl
  rw [h]
  refine ⟨rfl, ?_⟩
  intro it hit
  rw [List.mem_singleton] at hit
  subst hit
  exact ⟨rfl, rfl, rfl⟩
